import Mathlib

/-!
Shallow embedding of `lib/ppn/utils/handhistory.py` (Bitcoin-Poker-Room):
the hand-history domain-event normalizer.  Python dicts are modelled as
association lists (iteration order = list order), Python sets as lists used
only through membership, Python exceptions as `Except String`, and Python
integers as `Int` (chip amounts).  A raised exception during the lazy
iteration of a generator is modelled as an `Except.error` result of the
whole handler.
-/

/-- Player serial number (Python int). -/
abbrev PlayerId := Int

/-- A Python value, as far as the modelled code needs to distinguish them:
the `amount` slot of a collected-pot event receives an `int` on the
`resolve` path but the literal list `['chips_left']` (a Python list of
strings) on the `left_over` path (handhistory.py line 1114). -/
inductive PyVal where
  | int : Int → PyVal
  | str : String → PyVal
  | strList : List String → PyVal
deriving DecidableEq

/-- `Rank` namedtuple (handhistory.py line 34). -/
structure Rank where
  name : String
  abbreviation : String
deriving DecidableEq

/-- `Suit` namedtuple (handhistory.py line 41). -/
structure Suit where
  name : String
  abbreviation : String
deriving DecidableEq

/-- A card with its visibility tag; `Upcard` has `is_faceup = True`,
`Downcard` has `is_faceup = False` (handhistory.py lines 48-62). -/
structure Card where
  rank : Rank
  suit : Suit
  is_faceup : Bool
deriving DecidableEq

/-- `Hand` namedtuple: five cards plus the opaque pokereval numeric rank
(handhistory.py line 94).  The high/low orderings are modelled as the
functions below, mirroring the `HighHand`/`LowHand` class methods. -/
structure Hand where
  cards : List Card
  pokereval_ranking : Int
deriving DecidableEq

/-- `HighHand.is_better_than` (handhistory.py lines 104-105): greater
numeric rank is the stronger high hand. -/
def HighHand.is_better_than (self other_hand : Hand) : Bool :=
  decide (self.pokereval_ranking > other_hand.pokereval_ranking)

/-- `LowHand.is_better_than` (handhistory.py lines 172-173): lesser
numeric rank is the stronger low hand. -/
def LowHand.is_better_than (self other_hand : Hand) : Bool :=
  decide (self.pokereval_ranking < other_hand.pokereval_ranking)

/-- `HighHand.__eq__` / `LowHand.__eq__` (handhistory.py lines 110-111 and
178-179): equality is numeric-rank equality only, cards are ignored. -/
def Hand.eq (self other_hand : Hand) : Bool :=
  decide (self.pokereval_ranking = other_hand.pokereval_ranking)

/-- `BestHands` namedtuple (handhistory.py line 89): the optional high and
low best hands of one player, already put through the injected
`pokereval_best_hand_converter` capability (spec 4.5/4.6); a slot is
`none` when the adapter returned `None` (no qualifying hand). -/
structure BestHands where
  high : Option Hand
  low : Option Hand
deriving DecidableEq

/-- `ResolvedPot` namedtuple (handhistory.py line 91). -/
structure ResolvedPot where
  pot_amount : Int
  eligible_players : List PlayerId
  winners : List (PlayerId × Int)
deriving DecidableEq

/-- The canonical narrative events produced by the modelled handlers of
`GenericPokerEventGenerator` (handhistory.py lines 1340-1382). -/
inductive NEvent where
  | PlayerPostedSmallBlind (player_id : PlayerId) (amount : Int)
  | PlayerPostedBigBlind (player_id : PlayerId) (amount : Int)
  | PlayerPostedBigAndSmallBlinds (player_id : PlayerId)
      (big_blind_amount small_blind_amount : Int)
  | Showdown
  | PlayerShowedHand (player_id : PlayerId) (cards : List Card)
      (high_hand low_hand : Option Hand)
  | PlayerMuckedHand (player_id : PlayerId) (cards : List Card)
      (high_hand low_hand : Option Hand)
  | PlayerCollectedFromSidePot (player_id : PlayerId) (amount : PyVal)
      (side_pot_index : Int)
  | PlayerCollectedFromMainPot (player_id : PlayerId) (amount : PyVal)
  | UncalledBetReturnedToPlayer (player_id : PlayerId) (amount : Int)
  | HandEnded (pots : List ResolvedPot) (player_rake : List (PlayerId × Int))
deriving DecidableEq

/-- `BlindEvent` namedtuple (handhistory.py line 207). -/
structure BlindEvent where
  player_id : PlayerId
  blind_amount : Int
  dead_amount : Int

/-- The part of the rolling `Context` read by `handle_BlindEvent`: the
configured small/big blind set up by `handle_GameEvent`. -/
structure BlindContext where
  small_blind : Int
  big_blind : Int

/-- `GenericPokerEventGenerator.handle_BlindEvent` (handhistory.py lines
953-965).  `context.big_blind/2` is Python 2 floor division of ints; for
the positive divisor 2 it coincides with Lean's Euclidean `Int` division
used here. -/
def handle_BlindEvent (context : BlindContext) (event : BlindEvent) : List NEvent :=
  if event.dead_amount = context.small_blind ∧ event.blind_amount = context.big_blind then
    [NEvent.PlayerPostedBigAndSmallBlinds event.player_id event.blind_amount event.dead_amount]
  else if event.blind_amount = context.small_blind ∨ event.blind_amount ≤ context.big_blind / 2 then
    [NEvent.PlayerPostedSmallBlind event.player_id event.blind_amount]
  else if event.blind_amount ≤ context.big_blind then
    [NEvent.PlayerPostedBigBlind event.player_id event.blind_amount]
  else []

/-- Raw engine card encoding (a pokereval integer); the normalizer never
inspects it, it only passes it through the injected converter. -/
abbrev RawCard := Int

/-- `ShowdownEvent` namedtuple (handhistory.py line 223). -/
structure ShowdownEvent where
  community_cards : List RawCard
  player_cards : List (PlayerId × List RawCard)

/-- `GenericPokerEventGenerator.handle_ShowdownEvent` (handhistory.py
lines 989-994): replaces `context.player_cards` with the converted map of
all supplied players, and yields a `Showdown` narrative event only when
more than one player's cards are present.  Returns the new
`context.player_cards` value and the yielded events. -/
def handle_ShowdownEvent (pokercards_converter : List RawCard → List Card)
    (event : ShowdownEvent) : List (PlayerId × List Card) × List NEvent :=
  (event.player_cards.map (fun pc => (pc.1, pokercards_converter pc.2)),
   if 1 < event.player_cards.length then [NEvent.Showdown] else [])

/-- `sys.maxint` of CPython 2 on a 64-bit platform, used as the low-hand
sentinel in `resolved_pot_events` (handhistory.py line 1043). -/
def sys_maxint : Int := 2 ^ 63 - 1

/-- Python `d[k]` on an association-list dict: `KeyError` when absent. -/
def dictGet {α : Type} (d : List (PlayerId × α)) (k : PlayerId) : Except String α :=
  match d.lookup k with
  | some v => Except.ok v
  | none => Except.error "KeyError"

/-- `player_has_best_high_hand` (handhistory.py lines 1034-1036):
`high_hand and high_hand.is_better_than(best) or high_hand == best`.
When `high_hand` is `None` the comparison `None == best` ends in
`HighHand.__eq__(best, None)` reading `None.pokereval_ranking`, an
`AttributeError`; a present hand short-circuits through `or`. -/
def player_has_best_high_hand (high_hand : Option Hand) (best_high_hand : Hand) :
    Except String Bool :=
  match high_hand with
  | none => Except.error "AttributeError: NoneType has no attribute pokereval_ranking"
  | some h => Except.ok (HighHand.is_better_than h best_high_hand || Hand.eq h best_high_hand)

/-- `player_has_best_low_hand` (handhistory.py lines 1030-1032), same
shape as the high-hand test but with the low ordering. -/
def player_has_best_low_hand (low_hand : Option Hand) (best_low_hand : Hand) :
    Except String Bool :=
  match low_hand with
  | none => Except.error "AttributeError: NoneType has no attribute pokereval_ranking"
  | some h => Except.ok (LowHand.is_better_than h best_low_hand || Hand.eq h best_low_hand)

/-- `player_should_show` (handhistory.py lines 1025-1039): a player shows
when not already in `players_that_showed` and their high or low hand beats
or ties the running best; the `and` and `or` short-circuit left to
right. -/
def player_should_show (players_that_showed : List PlayerId) (player_id : PlayerId)
    (player_hands : BestHands) (best_high_hand best_low_hand : Hand) :
    Except String Bool :=
  if player_id ∈ players_that_showed then Except.ok false
  else
    match player_has_best_high_hand player_hands.high best_high_hand with
    | Except.error e => Except.error e
    | Except.ok true => Except.ok true
    | Except.ok false => player_has_best_low_hand player_hands.low best_low_hand

/-- The two per-hand sets `players_that_showed` / `players_that_mucked`
(handhistory.py lines 1022-1023), used only through membership. -/
structure ShowMuckState where
  showed : List PlayerId
  mucked : List PlayerId

/-- The show/muck loop of `resolved_pot_events` (handhistory.py lines
1045-1060): iterate the pot's eligible players in order; a shower emits
`PlayerShowedHand` and joins `players_that_showed`; otherwise a player not
yet in `players_that_mucked` emits `PlayerMuckedHand` and joins it.
`best_hands[player_id]` and `context.player_cards[player_id]` raise
`KeyError` when absent. -/
def show_muck_events (player_cards : List (PlayerId × List Card))
    (best_hands : List (PlayerId × BestHands)) (best_high_hand best_low_hand : Hand) :
    List PlayerId → ShowMuckState → Except String (List NEvent × ShowMuckState)
  | [], st => Except.ok ([], st)
  | player_id :: rest, st =>
    match dictGet best_hands player_id with
    | Except.error e => Except.error e
    | Except.ok player_hands =>
      match player_should_show st.showed player_id player_hands best_high_hand
        best_low_hand with
      | Except.error e => Except.error e
      | Except.ok true =>
        (match dictGet player_cards player_id with
         | Except.error e => Except.error e
         | Except.ok cards =>
           match show_muck_events player_cards best_hands best_high_hand
             best_low_hand rest { st with showed := player_id :: st.showed } with
           | Except.error e => Except.error e
           | Except.ok (evs, st') =>
             Except.ok (NEvent.PlayerShowedHand player_id cards player_hands.high
               player_hands.low :: evs, st'))
      | Except.ok false =>
        if player_id ∈ st.mucked then
          show_muck_events player_cards best_hands best_high_hand best_low_hand rest st
        else
          match dictGet player_cards player_id with
          | Except.error e => Except.error e
          | Except.ok cards =>
            match show_muck_events player_cards best_hands best_high_hand
              best_low_hand rest { st with mucked := player_id :: st.mucked } with
            | Except.error e => Except.error e
            | Except.ok (evs, st') =>
              Except.ok (NEvent.PlayerMuckedHand player_id cards player_hands.high
                player_hands.low :: evs, st')

/-- `resolved_pot_events` (handhistory.py lines 1041-1063): fresh sentinel
best hands `HighHand([], -1)` and `LowHand([], sys.maxint)` per pot, the
show/muck loop only when best-hand information exists, then one collected
event per winner share. -/
def resolved_pot_events (player_cards : List (PlayerId × List Card))
    (pot : ResolvedPot) (best_hands : Option (List (PlayerId × BestHands)))
    (player_collected_from_pot : PlayerId → PyVal → NEvent)
    (st : ShowMuckState) : Except String (List NEvent × ShowMuckState) :=
  match (match best_hands with
    | some bh =>
      show_muck_events player_cards bh (Hand.mk [] (-1)) (Hand.mk [] sys_maxint)
        pot.eligible_players st
    | none =>
      Except.ok (([] : List NEvent), st)) with
  | Except.error e => Except.error e
  | Except.ok (sm, st') =>
    Except.ok (sm ++ pot.winners.map (fun w => player_collected_from_pot w.1 (PyVal.int w.2)),
      st')

/-- One entry of `showdown_stack[1:]` (handhistory.py docstring lines
675-850): a `resolve`, `uncalled` or `left_over` dict, with the fields the
handler reads.  (`chips_left` of `left_over` is carried although the
handler, due to the bug modelled below, never reads it.) -/
inductive StackRecord where
  | resolve (serials : List PlayerId) (pot : Int) (serial2share : List (PlayerId × Int))
  | uncalled (serial : PlayerId) (uncalled_amount : Int)
  | left_over (serial : PlayerId) (chips_left : Int)
deriving DecidableEq

/-- The leading `game_state` dict of a showdown stack, restricted to the
keys `handle_EndEvent` reads.  `none` models an absent key:
`serial2best` is legitimately optional, while absent `side_pots`/`pots`
or `serial2rake` is a `KeyError`.  The `serial2best` value is modelled
after the injected best-hand adapter has been applied (spec 4.5). -/
structure GameState where
  serial2best : Option (List (PlayerId × BestHands))
  side_pots_pots : Option (List PyVal)
  serial2rake : Option (List (PlayerId × Int))

/-- `EndEvent` namedtuple (handhistory.py line 227); the stack is split
into its leading `game_state` record and the resolution tail, mirroring
`showdown_stack[0]` / `showdown_stack[1:]`. -/
structure EndEvent where
  winners : List PlayerId
  showdown_stack_head : GameState
  showdown_stack_tail : List StackRecord

/-- `get_best_hands` (handhistory.py lines 1003-1020): `None` without a
`serial2best` key, otherwise the per-player converted `BestHands` map. -/
def get_best_hands (end_state : GameState) : Option (List (PlayerId × BestHands)) :=
  end_state.serial2best

/-- `get_player_rake` (handhistory.py lines 1065-1069): copy of the
leading record's `serial2rake` dict; `KeyError` when the key is absent. -/
def get_player_rake (end_state : GameState) : Except String (List (PlayerId × Int)) :=
  match end_state.serial2rake with
  | some serial2rake => Except.ok serial2rake
  | none => Except.error "KeyError: serial2rake"

/-- The choice of collected-event builder for one record position
(handhistory.py lines 1077-1100): `player_collected_from_main_pot` when
the position's `side_pot_index` equals `main_pot_index`, otherwise the
`functools.partial` side-pot builder carrying the index. -/
def player_collected_from_pot (side_pot_index main_pot_index : Int) :
    PlayerId → PyVal → NEvent :=
  if side_pot_index = main_pot_index then
    fun pid amt => NEvent.PlayerCollectedFromMainPot pid amt
  else
    fun pid amt => NEvent.PlayerCollectedFromSidePot pid amt side_pot_index

/-- The record loop of `handle_EndEvent` (handhistory.py lines 1093-1114).
`side_pot_index = len(pots)` counts the `resolve` records consumed so far
(the deque grows by `appendleft`, modelled as cons); `left_over`
reproduces the source bug `amount=['chips_left']`: the amount is the
literal one-element list (modelled by `PyVal.strList`), not the record's
value. -/
def process_records (player_cards : List (PlayerId × List Card))
    (best_hands : Option (List (PlayerId × BestHands))) (main_pot_index : Int) :
    List StackRecord → List ResolvedPot → ShowMuckState →
    Except String (List NEvent × List ResolvedPot)
  | [], pots, _ => Except.ok ([], pots)
  | r :: rest, pots, st =>
    let collect := player_collected_from_pot (pots.length : Int) main_pot_index
    match r with
    | StackRecord.resolve serials potAmount serial2share =>
      let pot : ResolvedPot := ⟨potAmount, serials, serial2share⟩
      (match resolved_pot_events player_cards pot best_hands collect st with
       | Except.error e => Except.error e
       | Except.ok (evs1, st') =>
         match process_records player_cards best_hands main_pot_index
           rest (pot :: pots) st' with
         | Except.error e => Except.error e
         | Except.ok (evs2, pots') => Except.ok (evs1 ++ evs2, pots'))
    | StackRecord.uncalled serial uncalled_amount =>
      (match process_records player_cards best_hands main_pot_index rest pots st with
       | Except.error e => Except.error e
       | Except.ok (evs2, pots') =>
         Except.ok (NEvent.UncalledBetReturnedToPlayer serial uncalled_amount :: evs2, pots'))
    | StackRecord.left_over serial _chips_left =>
      (match process_records player_cards best_hands main_pot_index rest pots st with
       | Except.error e => Except.error e
       | Except.ok (evs2, pots') =>
         Except.ok (collect serial (PyVal.strList ["chips_left"]) :: evs2, pots'))

/-- `GenericPokerEventGenerator.handle_EndEvent` (handhistory.py lines
1002-1118).  `context_player_cards` is the `context.player_cards` dict in
effect when the End event is processed.  `num_pots` is
`len(end_state['side_pots']['pots'])`, read before the loop; the rake map
is read after it; the terminating `HandEnded` carries the accumulated pot
deque (front = last appendleft) and the rake map. -/
def handle_EndEvent (context_player_cards : List (PlayerId × List Card))
    (event : EndEvent) : Except String (List NEvent) :=
  match event.showdown_stack_head.side_pots_pots with
  | none => Except.error "KeyError: side_pots"
  | some side_pots =>
    match process_records context_player_cards (get_best_hands event.showdown_stack_head)
      ((side_pots.length : Int) - 1) event.showdown_stack_tail [] ⟨[], []⟩ with
    | Except.error e => Except.error e
    | Except.ok (evs, pots) =>
      match get_player_rake event.showdown_stack_head with
      | Except.error e => Except.error e
      | Except.ok player_rake => Except.ok (evs ++ [NEvent.HandEnded pots player_rake])

/-- `Limit` constants (handhistory.py lines 19-22). -/
inductive Limit where
  | FIXED_LIMIT
  | POT_LIMIT
  | NO_LIMIT
deriving DecidableEq

/-- `BettingStructure` namedtuple (handhistory.py line 84). -/
structure BettingStructure where
  limit : Limit
  small_blind : Int
  big_blind : Int
deriving DecidableEq

/-- All ways the regex atom `[0-9]+` can match a prefix of `s`, as
(matched, rest) pairs in backtracking priority order: the greedy longest
match first, then successively shorter nonempty ones. -/
def rePlusDigits : List Char → List (List Char × List Char)
  | [] => []
  | c :: rest =>
    if c.isDigit then
      (rePlusDigits rest).map (fun p => (c :: p.1, p.2)) ++ [([c], rest)]
    else []

/-- The regex atom `[0-9]?`: prefer consuming one digit, fall back to the
empty match. -/
def reOptDigit : List Char → List (List Char × List Char)
  | [] => [([], [])]
  | c :: rest => if c.isDigit then [([c], rest), ([], c :: rest)] else [([], c :: rest)]

/-- The regex atom `\.?`: prefer consuming one dot, fall back to empty. -/
def reOptDot : List Char → List (List Char × List Char)
  | [] => [([], [])]
  | c :: rest => if c = '.' then [([c], rest), ([], c :: rest)] else [([], c :: rest)]

/-- All prefix matches of the amount group `[0-9]?\.?[0-9]+` of
`parse_betting_structure`'s regex (handhistory.py line 892), in
backtracking priority order. -/
def reAmountGroup (s : List Char) : List (List Char × List Char) :=
  (reOptDigit s).flatMap (fun p1 =>
    (reOptDot p1.2).flatMap (fun p2 =>
      (rePlusDigits p2.2).map (fun p3 => (p1.1 ++ p2.1 ++ p3.1, p3.2))))

/-- Matching `([0-9]?\.?[0-9]+)-([0-9]?\.?[0-9]+)-(.+)` against `s` with
Python `re` backtracking; `.` matches anything but a newline and `(.+)`
is greedy and last, so it captures everything up to a newline or the end
of the string.  Returns the three captured groups of the first successful
alternative. -/
def reMatchTail (s : List Char) : Option (List Char × List Char × List Char) :=
  (reAmountGroup s).findSome? (fun p1 =>
    match p1.2 with
    | '-' :: r2 =>
      (reAmountGroup r2).findSome? (fun p2 =>
        match p2.2 with
        | '-' :: r4 =>
          let g4 := r4.takeWhile (fun c => c ≠ '\n')
          if g4.isEmpty then none else some (p1.1, p2.1, g4)
        | _ => none)
    | _ => none)

/-- The full regex `(ante-)?([0-9]?\.?[0-9]+)-([0-9]?\.?[0-9]+)-(.+)` of
`parse_betting_structure`: the optional `ante-` literal is tried first and
backtracked to the empty alternative when the remainder fails. -/
def reMatchBettingStructure (s : List Char) : Option (List Char × List Char × List Char) :=
  if s.take 5 = "ante-".toList then
    match reMatchTail (s.drop 5) with
    | some g => some g
    | none => reMatchTail s
  else reMatchTail s

/-- `LIMIT_MAP` (handhistory.py lines 887-889); a key outside the map is a
`KeyError`, modelled as `none`. -/
def LIMIT_MAP (s : List Char) : Option Limit :=
  if s = "limit".toList then some Limit.FIXED_LIMIT
  else if s = "no-limit".toList then some Limit.NO_LIMIT
  else if s = "pot-limit".toList then some Limit.POT_LIMIT
  else none

/-- Numeric value of a digit string, most significant digit first. -/
def natFromDigits (ds : List Char) : Nat :=
  ds.foldl (fun a c => 10 * a + (c.toNat - 48)) 0

/-- The digits before the (first) dot of an amount string. -/
def intDigits (s : List Char) : List Char := s.takeWhile (fun c => c ≠ '.')

/-- The digits after the (first) dot of an amount string. -/
def fracDigits (s : List Char) : List Char := (s.dropWhile (fun c => c ≠ '.')).drop 1

/-- `amount_string_to_int` (handhistory.py lines 875-876) at the default
`scale_factor=100`: `int(Decimal(amount_string)*100)`.  `Decimal` is
exact, the strings the regex admits denote `i + f/10^k` with `i`,`f`
nonnegative, and `int()` truncates toward zero, which for nonnegative
values is the floor implemented here by natural division. -/
def amount_string_to_int (s : List Char) : Int :=
  ((natFromDigits (intDigits s ++ fracDigits s) * 100) / 10 ^ (fracDigits s).length : Nat)

/-- The exact rational value of a decimal numeral (used to state that
parsed amounts are the numeral's value scaled by 100 and truncated). -/
def decimal_value (s : List Char) : ℚ :=
  (natFromDigits (intDigits s) : ℚ) +
    (natFromDigits (fracDigits s) : ℚ) / 10 ^ (fracDigits s).length

/-- `parse_betting_structure` (handhistory.py lines 879-897).  `none`
models a raised exception: `AttributeError` on a failed regex match
(`None.groups()`), or `KeyError` on an unknown limit keyword. -/
def parse_betting_structure (betting_structure : List Char) : Option BettingStructure :=
  match reMatchBettingStructure betting_structure with
  | none => none
  | some (small_blind, big_blind, limit) =>
    match LIMIT_MAP limit with
    | none => none
    | some l => some ⟨l, amount_string_to_int small_blind, amount_string_to_int big_blind⟩

/-- The engine event kinds, one per `EVENT_MAP` entry (handhistory.py
lines 852-865); the payload of the constructed typed event is not part of
what the dispatch claim depends on, so only the kind tag is modelled. -/
inductive EngineEventKind where
  | game
  | round
  | blind
  | ante
  | allin
  | call
  | check
  | fold
  | raiseK
  | showdown
  | canceled
  | endK
deriving DecidableEq

/-- `PokerEngineEventGenerator.EVENT_MAP` (handhistory.py lines 852-865). -/
def EVENT_MAP : List (String × EngineEventKind) :=
  [("game", EngineEventKind.game), ("round", EngineEventKind.round),
   ("blind", EngineEventKind.blind), ("ante", EngineEventKind.ante),
   ("all-in", EngineEventKind.allin), ("call", EngineEventKind.call),
   ("check", EngineEventKind.check), ("fold", EngineEventKind.fold),
   ("raise", EngineEventKind.raiseK), ("showdown", EngineEventKind.showdown),
   ("canceled", EngineEventKind.canceled), ("end", EngineEventKind.endK)]

/-- `PokerEngineEventGenerator.generate_from_event` (handhistory.py lines
867-872): build the typed event for the record's type label; a label
without a mapping raises `KeyError`, which is caught and turned into the
empty tuple of events. -/
def pokerengine_generate_from_event (event_label : String) : List EngineEventKind :=
  match EVENT_MAP.lookup event_label with
  | some k => [k]
  | none => []

/-- `Generator.event_handler` (handhistory.py lines 353-354). -/
def event_handler (className : String) : String := "handle_" ++ className

/-- `Generator.generate_from_event` (handhistory.py lines 356-362):
dynamic dispatch `getattr(self, 'handle_' + classname)`, modelled as a
lookup in the generator's method table; a missing handler raises
`AttributeError`, caught and turned into the empty tuple of events. -/
def generate_from_event {α β : Type} (handlers : List (String × (α → List β)))
    (className : String) (event : α) : List β :=
  match handlers.lookup (event_handler className) with
  | some h => h event
  | none => []

/-- One token of a Python format string: a literal run, a positional
placeholder `{i}`, or a keyword placeholder `{key}`. -/
inductive FmtTok where
  | lit (s : String)
  | pos (index : Nat)
  | kw (key : String)

/-- Python `template.format(*args, **kwargs)` over a tokenized template:
a positional placeholder beyond the argument tuple raises `IndexError`, a
keyword placeholder without a matching keyword argument raises
`KeyError`. -/
def pyFormat : List FmtTok → List String → List (String × String) → Except String String
  | [], _, _ => Except.ok ""
  | t :: rest, args, kwargs => do
    let piece ← (match t with
      | FmtTok.lit s => Except.ok s
      | FmtTok.pos i =>
        (match args.get? i with
         | some v => Except.ok v
         | none => Except.error "IndexError: tuple index out of range")
      | FmtTok.kw k =>
        (match kwargs.lookup k with
         | some v => Except.ok v
         | none => Except.error "KeyError"))
    let restStr ← pyFormat rest args kwargs
    Except.ok (piece ++ restStr)

/-- Python `l[i]` on a list: `IndexError` when out of range. -/
def pyIndex {α : Type} (l : List α) (i : Nat) : Except String α :=
  match l.get? i with
  | some v => Except.ok v
  | none => Except.error "IndexError: list index out of range"

/-- `FullHouse.__str__` (handhistory.py lines 132-135): the template
`'a full house, {0}s full of {0}s'` is applied to the keyword arguments
`rank_one`, `rank_two` (evaluated first, reading `cards[0]` and
`cards[3]`), with no positional arguments. -/
def FullHouse.str (self : Hand) : Except String String := do
  let rank_one ← pyIndex self.cards 0
  let rank_two ← pyIndex self.cards 3
  pyFormat
    [FmtTok.lit "a full house, ", FmtTok.pos 0, FmtTok.lit "s full of ",
     FmtTok.pos 0, FmtTok.lit "s"]
    [] [("rank_one", rank_one.rank.name), ("rank_two", rank_two.rank.name)]

/-- `ThreeOfAKind.__str__` (handhistory.py lines 150-152): the template
`'three of a kind, {1}s'` is applied to the single positional argument
`self.cards[0].rank.name`. -/
def ThreeOfAKind.str (self : Hand) : Except String String := do
  let rank_one ← pyIndex self.cards 0
  pyFormat [FmtTok.lit "three of a kind, ", FmtTok.pos 1, FmtTok.lit "s"]
    [rank_one.rank.name] []

/-- Classifier: is this a collected-from-pot narrative event? -/
def NEvent.isCollected : NEvent → Bool
  | NEvent.PlayerCollectedFromMainPot _ _ => true
  | NEvent.PlayerCollectedFromSidePot _ _ _ => true
  | _ => false

/-- Classifier: is this the terminating hand-ended narrative event? -/
def NEvent.isHandEnded : NEvent → Bool
  | NEvent.HandEnded _ _ => true
  | _ => false

/-- Classifier: is this an uncalled-bet-returned narrative event? -/
def NEvent.isUncalledReturned : NEvent → Bool
  | NEvent.UncalledBetReturnedToPlayer _ _ => true
  | _ => false

/-- Classifier: showed-hand event of the given player. -/
def NEvent.isShowedFor (pid : PlayerId) : NEvent → Bool
  | NEvent.PlayerShowedHand p _ _ _ => p == pid
  | _ => false

/-- Classifier: mucked-hand event of the given player. -/
def NEvent.isMuckedFor (pid : PlayerId) : NEvent → Bool
  | NEvent.PlayerMuckedHand p _ _ _ => p == pid
  | _ => false

/-- Classifier: any showed- or mucked-hand event. -/
def NEvent.isShowOrMuck : NEvent → Bool
  | NEvent.PlayerShowedHand _ _ _ _ => true
  | NEvent.PlayerMuckedHand _ _ _ _ => true
  | _ => false

/-- Number of showed-hand events of one player in an event sequence. -/
def showedCount (pid : PlayerId) (evs : List NEvent) : Nat :=
  (evs.filter (NEvent.isShowedFor pid)).length

/-- Number of mucked-hand events of one player in an event sequence. -/
def muckedCount (pid : PlayerId) (evs : List NEvent) : Nat :=
  (evs.filter (NEvent.isMuckedFor pid)).length

/-- Did the modelled computation succeed (no raised exception)? -/
def exceptIsOk {α : Type} : Except String α → Bool
  | Except.ok _ => true
  | Except.error _ => false

/-- Blind classification exactly as spec §4.1 words it: (1) dead = small
and posted = big gives big-and-small; (2) else posted = small or posted at
most half the big blind gives small; (3) else posted at most big gives
big; (4) else nothing.  "At most half" is the exact rational condition
`2 * posted ≤ big`. -/
def blind_classification_spec (context : BlindContext) (event : BlindEvent) : List NEvent :=
  if event.dead_amount = context.small_blind ∧ event.blind_amount = context.big_blind then
    [NEvent.PlayerPostedBigAndSmallBlinds event.player_id event.blind_amount event.dead_amount]
  else if event.blind_amount = context.small_blind ∨ 2 * event.blind_amount ≤ context.big_blind then
    [NEvent.PlayerPostedSmallBlind event.player_id event.blind_amount]
  else if event.blind_amount ≤ context.big_blind then
    [NEvent.PlayerPostedBigBlind event.player_id event.blind_amount]
  else []

/-- C2: for every Blind event and context, `handle_BlindEvent` emits
exactly the one event selected by the spec's first-match decision order
(with "at most half the configured big blind" read exactly), and on the
configured small=10/big=25 examples: posted 10 dead 0 is a small blind,
posted 25 dead 10 is big-and-small, posted 25 dead 0 is a big blind, and
posted 12 dead 0 is a small blind. -/
theorem c2_blind_classification :
    (∀ (context : BlindContext) (event : BlindEvent),
      handle_BlindEvent context event = blind_classification_spec context event) ∧
    handle_BlindEvent ⟨10, 25⟩ ⟨1, 10, 0⟩ = [NEvent.PlayerPostedSmallBlind 1 10] ∧
    handle_BlindEvent ⟨10, 25⟩ ⟨1, 25, 10⟩ = [NEvent.PlayerPostedBigAndSmallBlinds 1 25 10] ∧
    handle_BlindEvent ⟨10, 25⟩ ⟨1, 25, 0⟩ = [NEvent.PlayerPostedBigBlind 1 25] ∧
    handle_BlindEvent ⟨10, 25⟩ ⟨1, 12, 0⟩ = [NEvent.PlayerPostedSmallBlind 1 12] := by
  refine ⟨?_, rfl, rfl, rfl, rfl⟩
  intro context event
  have h : event.blind_amount ≤ context.big_blind / 2 ↔
      2 * event.blind_amount ≤ context.big_blind := by omega
  simp only [handle_BlindEvent, blind_classification_spec, h]

/-- C5: high-hand comparison holds exactly on strictly greater numeric
rank, low-hand comparison exactly on strictly less numeric rank, and
equality of two hands of the same ordering is exactly numeric-rank
equality, whatever the card sequences are. -/
theorem c5_hand_comparisons :
    (∀ h1 h2 : Hand, HighHand.is_better_than h1 h2 = true ↔
      h2.pokereval_ranking < h1.pokereval_ranking) ∧
    (∀ h1 h2 : Hand, LowHand.is_better_than h1 h2 = true ↔
      h1.pokereval_ranking < h2.pokereval_ranking) ∧
    (∀ h1 h2 : Hand, Hand.eq h1 h2 = true ↔
      h1.pokereval_ranking = h2.pokereval_ranking) ∧
    (∀ (c1 c2 : List Card) (r : Int), Hand.eq ⟨c1, r⟩ ⟨c2, r⟩ = true) := by
  refine ⟨?_, ?_, ?_, ?_⟩ <;> intros <;>
    simp [HighHand.is_better_than, LowHand.is_better_than, Hand.eq]

/-- C7: the Showdown handler replaces the context's per-player hole-card
map with the converted cards of every supplied player unconditionally, and
emits the showdown marker exactly when more than one player's cards are
present. -/
theorem c7_showdown_trigger :
    ∀ (conv : List RawCard → List Card) (event : ShowdownEvent),
      (handle_ShowdownEvent conv event).1 =
        event.player_cards.map (fun pc => (pc.1, conv pc.2)) ∧
      ((handle_ShowdownEvent conv event).2 = [NEvent.Showdown] ↔
        1 < event.player_cards.length) ∧
      (handle_ShowdownEvent conv event).2 =
        (if 1 < event.player_cards.length then [NEvent.Showdown] else []) := by
  intro conv event
  refine ⟨rfl, ?_, rfl⟩
  by_cases h : 1 < event.player_cards.length <;> simp [handle_ShowdownEvent, h]

/-- C10: for every FullHouse and every ThreeOfAKind value over a non-empty
card list, computing the human-readable description raises instead of
returning a string: the FullHouse template uses positional placeholder 0
with only keyword arguments supplied (or already fails indexing
`cards[3]`), and the ThreeOfAKind template uses positional placeholder 1
with a single argument supplied. -/
theorem c10_description_templates_error :
    ∀ (cards : List Card) (r : Int), cards ≠ [] →
      (∃ e, FullHouse.str ⟨cards, r⟩ = Except.error e) ∧
      (∃ e, ThreeOfAKind.str ⟨cards, r⟩ = Except.error e) := by
  intro cards r hne
  match cards, hne with
  | c :: rest, _ =>
    refine ⟨?_, ?_⟩
    · cases h3 : rest[2]? with
      | none =>
        exact ⟨"IndexError: list index out of range", by
          simp [FullHouse.str, pyIndex, h3, Bind.bind, Except.bind]⟩
      | some c3 =>
        exact ⟨"IndexError: tuple index out of range", by
          simp [FullHouse.str, pyIndex, h3, pyFormat, Bind.bind, Except.bind]⟩
    · exact ⟨"IndexError: tuple index out of range", by
        simp [ThreeOfAKind.str, pyIndex, pyFormat, Bind.bind, Except.bind]⟩

/-- A one-card sample for the C10 witness. -/
def sampleCard : Card := ⟨⟨"Ace", "A"⟩, ⟨"clubs", "c"⟩, true⟩

/-- C10 witness at the concrete one-card hand. -/
theorem c10_description_templates_error_witness :
    ([sampleCard] : List Card) ≠ [] ∧
    ((∃ e, FullHouse.str ⟨[sampleCard], 0⟩ = Except.error e) ∧
     (∃ e, ThreeOfAKind.str ⟨[sampleCard], 0⟩ = Except.error e)) :=
  ⟨by simp, c10_description_templates_error [sampleCard] 0 (by simp)⟩

/-- The failing input of C1: one player (22) with only a high hand, two
pots (so the declared main pot has index 1), two resolve records each with
eligible-player list [22] and no winner shares. -/
def c1_failing_end_event : EndEvent :=
  { winners := [22],
    showdown_stack_head :=
      { serial2best := some [(22, ⟨some ⟨[], 5⟩, none⟩)],
        side_pots_pots := some [PyVal.int 0, PyVal.int 0],
        serial2rake := some [] },
    showdown_stack_tail :=
      [StackRecord.resolve [22] 30 [], StackRecord.resolve [22] 10 []] }

/-- The narrative events the code produces on `c1_failing_end_event`. -/
def c1_failing_output : List NEvent :=
  [NEvent.PlayerShowedHand 22 [] (some ⟨[], 5⟩) none,
   NEvent.PlayerMuckedHand 22 [] (some ⟨[], 5⟩) none,
   NEvent.HandEnded [⟨10, [22], []⟩, ⟨30, [22], []⟩] []]

/-- C1 (code bug): on an End event with best-hand information and two
resolve records sharing an eligible player, the code emits both a
showed-hand event (first pot) and a mucked-hand event (second pot) for the
same player in the same hand — the muck branch only checks
`players_that_mucked`, not `players_that_showed`. -/
theorem c1_player_shown_then_mucked :
    handle_EndEvent [(22, [])] c1_failing_end_event = Except.ok c1_failing_output ∧
    showedCount 22 c1_failing_output = 1 ∧
    muckedCount 22 c1_failing_output = 1 := by
  refine ⟨rfl, rfl, rfl⟩

/-- The failing input of C3: a single left_over record assigning 7
leftover chips to player 22, in a one-pot hand with no showdown. -/
def c3_failing_end_event : EndEvent :=
  { winners := [22],
    showdown_stack_head :=
      { serial2best := none,
        side_pots_pots := some [PyVal.int 0],
        serial2rake := some [(22, 0)] },
    showdown_stack_tail := [StackRecord.left_over 22 7] }

/-- C3 (code bug): the collected event produced for a left_over record
carries the literal Python list `['chips_left']` as its amount, not the
record's leftover-chips value (7 here); recipient and main-pot tagging are
as claimed. -/
theorem c3_left_over_amount_bug :
    handle_EndEvent [] c3_failing_end_event =
      Except.ok [NEvent.PlayerCollectedFromMainPot 22 (PyVal.strList ["chips_left"]),
                 NEvent.HandEnded [] [(22, 0)]] ∧
    PyVal.strList ["chips_left"] ≠ PyVal.int 7 := by
  refine ⟨rfl, by decide⟩

/-- C9: a raw record whose type label has no `EVENT_MAP` entry produces
zero events; a typed event with no handler method on the generator
produces zero events; but an End event whose leading record lacks the
expected `serial2rake` key never succeeds — the error propagates. -/
theorem c9_unrecognized_silent_malformed_fatal :
    (∀ event_label : String, EVENT_MAP.lookup event_label = none →
      pokerengine_generate_from_event event_label = []) ∧
    (∀ (α β : Type) (handlers : List (String × (α → List β))) (className : String)
      (event : α), handlers.lookup (event_handler className) = none →
      generate_from_event handlers className event = []) ∧
    (∀ (pc : List (PlayerId × List Card)) (event : EndEvent),
      event.showdown_stack_head.serial2rake = none →
      exceptIsOk (handle_EndEvent pc event) = false) := by
  refine ⟨?_, ?_, ?_⟩
  · intro lbl h
    simp [pokerengine_generate_from_event, h]
  · intro α β handlers className event h
    simp [generate_from_event, h]
  · intro pc event hrake
    unfold handle_EndEvent
    cases hsp : event.showdown_stack_head.side_pots_pots with
    | none => simp [exceptIsOk]
    | some l =>
      cases hpr : process_records pc (get_best_hands event.showdown_stack_head)
          ((l.length : Int) - 1) event.showdown_stack_tail [] ⟨[], []⟩ with
      | error e => simp [hpr, exceptIsOk]
      | ok p => simp [hpr, get_player_rake, hrake, exceptIsOk]

/-- C9 witness: the engine's own `position` records have no mapping, the
formatter has no `handle_PlayerWentAllIn` method, and an End event with no
`serial2rake` key fails. -/
theorem c9_unrecognized_silent_malformed_fatal_witness :
    pokerengine_generate_from_event "position" = [] ∧
    generate_from_event ([] : List (String × (Unit → List Unit))) "PlayerWentAllIn" () = [] ∧
    exceptIsOk (handle_EndEvent []
      ⟨[22], ⟨none, some [], none⟩, [StackRecord.resolve [22] 10 []]⟩) = false :=
  ⟨c9_unrecognized_silent_malformed_fatal.1 "position" (by decide),
   c9_unrecognized_silent_malformed_fatal.2.1 Unit Unit [] "PlayerWentAllIn" () rfl,
   c9_unrecognized_silent_malformed_fatal.2.2 []
     ⟨[22], ⟨none, some [], none⟩, [StackRecord.resolve [22] 10 []]⟩ rfl⟩

/-- `resolved_pot` (handhistory.py lines 1071-1075): the `ResolvedPot`
built from a `resolve` record; the other record kinds never reach it, so
they are mapped to a dummy pot. -/
def resolved_pot : StackRecord → ResolvedPot
  | StackRecord.resolve serials pot serial2share => ⟨pot, serials, serial2share⟩
  | StackRecord.uncalled _ _ => ⟨0, [], []⟩
  | StackRecord.left_over _ _ => ⟨0, [], []⟩

/-- Whether a showdown-stack record is a `resolve` record. -/
def StackRecord.isResolve : StackRecord → Bool
  | StackRecord.resolve _ _ _ => true
  | _ => false

theorem player_collected_isCollected (i m : Int) (pid : PlayerId) (amt : PyVal) :
    NEvent.isCollected (player_collected_from_pot i m pid amt) = true := by
  unfold player_collected_from_pot
  by_cases h : i = m <;> simp [h, NEvent.isCollected]

theorem not_HandEnded_of_kinds (e : NEvent)
    (h : NEvent.isShowOrMuck e = true ∨ NEvent.isCollected e = true ∨
      NEvent.isUncalledReturned e = true) :
    NEvent.isHandEnded e = false := by
  cases e <;> simp_all [NEvent.isShowOrMuck, NEvent.isCollected,
    NEvent.isUncalledReturned, NEvent.isHandEnded]

theorem not_ShowOrMuck_of_kinds (e : NEvent)
    (h : NEvent.isCollected e = true ∨ NEvent.isUncalledReturned e = true) :
    NEvent.isShowOrMuck e = false := by
  cases e <;> simp_all [NEvent.isShowOrMuck, NEvent.isCollected, NEvent.isUncalledReturned]

/-- Every event yielded by the show/muck loop is a showed- or mucked-hand
event. -/
theorem show_muck_events_kinds (pc : List (PlayerId × List Card))
    (bh : List (PlayerId × BestHands)) (bhh blh : Hand) :
    ∀ (players : List PlayerId) (st : ShowMuckState) (evs : List NEvent)
      (st' : ShowMuckState),
      show_muck_events pc bh bhh blh players st = Except.ok (evs, st') →
      ∀ e ∈ evs, NEvent.isShowOrMuck e = true := by
  intro players
  induction players with
  | nil =>
    intro st evs st' h e he
    simp only [show_muck_events, Except.ok.injEq, Prod.mk.injEq] at h
    rw [← h.1] at he
    simp at he
  | cons pid rest ih =>
    intro st evs st' h e he
    simp only [show_muck_events] at h
    split at h
    · exact absurd h (by simp)
    · split at h
      · exact absurd h (by simp)
      · split at h
        · exact absurd h (by simp)
        · split at h
          · exact absurd h (by simp)
          · rename_i hrec
            simp only [Except.ok.injEq, Prod.mk.injEq] at h
            rw [← h.1] at he
            rcases List.mem_cons.mp he with rfl | he'
            · simp [NEvent.isShowOrMuck]
            · exact ih _ _ _ hrec e he'
      · split at h
        · exact ih _ _ _ h e he
        · split at h
          · exact absurd h (by simp)
          · split at h
            · exact absurd h (by simp)
            · rename_i hrec
              simp only [Except.ok.injEq, Prod.mk.injEq] at h
              rw [← h.1] at he
              rcases List.mem_cons.mp he with rfl | he'
              · simp [NEvent.isShowOrMuck]
              · exact ih _ _ _ hrec e he'

/-- Every event yielded for one resolved pot is a showed/mucked-hand event
or a collected event; with no best-hand information the show/muck loop is
skipped and only collected events remain. -/
theorem resolved_pot_events_kinds (pc : List (PlayerId × List Card))
    (pot : ResolvedPot) (bh : Option (List (PlayerId × BestHands))) (i m : Int)
    (st : ShowMuckState) (evs : List NEvent) (st' : ShowMuckState)
    (h : resolved_pot_events pc pot bh (player_collected_from_pot i m) st =
      Except.ok (evs, st')) :
    (∀ e ∈ evs, NEvent.isShowOrMuck e = true ∨ NEvent.isCollected e = true) ∧
    (bh = none → ∀ e ∈ evs, NEvent.isCollected e = true) := by
  simp only [resolved_pot_events] at h
  cases bh with
  | none =>
    simp only [Except.ok.injEq, Prod.mk.injEq] at h
    constructor
    · intro e he
      rw [← h.1] at he
      simp only [List.nil_append, List.mem_map] at he
      obtain ⟨w, _, rfl⟩ := he
      exact Or.inr (player_collected_isCollected i m w.1 (PyVal.int w.2))
    · intro _ e he
      rw [← h.1] at he
      simp only [List.nil_append, List.mem_map] at he
      obtain ⟨w, _, rfl⟩ := he
      exact player_collected_isCollected i m w.1 (PyVal.int w.2)
  | some bhv =>
    refine ⟨?_, by intro hc; cases hc⟩
    intro e he
    split at h
    · exact absurd h (by simp)
    · rename_i sm hsm
      simp only [Except.ok.injEq, Prod.mk.injEq] at h
      rw [← h.1] at he
      rcases List.mem_append.mp he with he' | he'
      · exact Or.inl (show_muck_events_kinds pc bhv _ _ _ _ _ _ hsm e he')
      · simp only [List.mem_map] at he'
        obtain ⟨w, _, rfl⟩ := he'
        exact Or.inr (player_collected_isCollected i m w.1 (PyVal.int w.2))

/-- Every event yielded by the record loop is a showed/mucked, collected,
or uncalled-returned event, and with no best-hand information no
showed/mucked events occur. -/
theorem process_records_kinds (pc : List (PlayerId × List Card))
    (bh : Option (List (PlayerId × BestHands))) (m : Int) :
    ∀ (records : List StackRecord) (pots : List ResolvedPot) (st : ShowMuckState)
      (evs : List NEvent) (pots' : List ResolvedPot),
      process_records pc bh m records pots st = Except.ok (evs, pots') →
      (∀ e ∈ evs, NEvent.isShowOrMuck e = true ∨ NEvent.isCollected e = true ∨
        NEvent.isUncalledReturned e = true) ∧
      (bh = none → ∀ e ∈ evs, NEvent.isShowOrMuck e = false) := by
  intro records
  induction records with
  | nil =>
    intro pots st evs pots' h
    simp only [process_records, Except.ok.injEq, Prod.mk.injEq] at h
    constructor
    · intro e he; rw [← h.1] at he; simp at he
    · intro _ e he; rw [← h.1] at he; simp at he
  | cons r rest ih =>
    intro pots st evs pots' h
    cases r with
    | resolve serials potAmount serial2share =>
      simp only [process_records] at h
      split at h
      · exact absurd h (by simp)
      · rename_i evs1 st1 hrpe
        split at h
        · exact absurd h (by simp)
        · rename_i evs2 pots2 hrec
          simp only [Except.ok.injEq, Prod.mk.injEq] at h
          have hk1 := resolved_pot_events_kinds pc _ bh _ m _ _ _ hrpe
          have hk2 := ih _ _ _ _ hrec
          constructor
          · intro e he
            rw [← h.1] at he
            rcases List.mem_append.mp he with he' | he'
            · rcases hk1.1 e he' with hx | hx
              · exact Or.inl hx
              · exact Or.inr (Or.inl hx)
            · exact hk2.1 e he'
          · intro hnone e he
            rw [← h.1] at he
            rcases List.mem_append.mp he with he' | he'
            · exact not_ShowOrMuck_of_kinds e (Or.inl (hk1.2 hnone e he'))
            · exact hk2.2 hnone e he'
    | uncalled serial amt =>
      simp only [process_records] at h
      split at h
      · exact absurd h (by simp)
      · rename_i evs2 pots2 hrec
        simp only [Except.ok.injEq, Prod.mk.injEq] at h
        have hk2 := ih _ _ _ _ hrec
        constructor
        · intro e he
          rw [← h.1] at he
          rcases List.mem_cons.mp he with rfl | he'
          · exact Or.inr (Or.inr rfl)
          · exact hk2.1 e he'
        · intro hnone e he
          rw [← h.1] at he
          rcases List.mem_cons.mp he with rfl | he'
          · rfl
          · exact hk2.2 hnone e he'
    | left_over serial chips =>
      simp only [process_records] at h
      split at h
      · exact absurd h (by simp)
      · rename_i evs2 pots2 hrec
        simp only [Except.ok.injEq, Prod.mk.injEq] at h
        have hk2 := ih _ _ _ _ hrec
        constructor
        · intro e he
          rw [← h.1] at he
          rcases List.mem_cons.mp he with rfl | he'
          · exact Or.inr (Or.inl (player_collected_isCollected _ m serial _))
          · exact hk2.1 e he'
        · intro hnone e he
          rw [← h.1] at he
          rcases List.mem_cons.mp he with rfl | he'
          · exact not_ShowOrMuck_of_kinds _
              (Or.inl (player_collected_isCollected _ m serial _))
          · exact hk2.2 hnone e he'

/-- When the record loop consumes only `resolve` records, the accumulated
pot deque is the reverse of the records' pots consed on the initial
accumulator (each pot is `appendleft`ed). -/
theorem process_records_pots (pc : List (PlayerId × List Card))
    (bh : Option (List (PlayerId × BestHands))) (m : Int) :
    ∀ (records : List StackRecord) (pots : List ResolvedPot) (st : ShowMuckState)
      (evs : List NEvent) (pots' : List ResolvedPot),
      (∀ r ∈ records, StackRecord.isResolve r = true) →
      process_records pc bh m records pots st = Except.ok (evs, pots') →
      pots' = (records.map resolved_pot).reverse ++ pots := by
  intro records
  induction records with
  | nil =>
    intro pots st evs pots' _ h
    simp only [process_records, Except.ok.injEq, Prod.mk.injEq] at h
    simp [← h.2]
  | cons r rest ih =>
    intro pots st evs pots' hres h
    cases r with
    | resolve serials potAmount serial2share =>
      simp only [process_records] at h
      split at h
      · exact absurd h (by simp)
      · rename_i evs1 st1 hrpe
        split at h
        · exact absurd h (by simp)
        · rename_i evs2 pots2 hrec
          simp only [Except.ok.injEq, Prod.mk.injEq] at h
          have hrest := ih (⟨potAmount, serials, serial2share⟩ :: pots) st1 evs2 pots2
            (fun r hr => hres r (List.mem_cons_of_mem _ hr)) hrec
          rw [← h.2, hrest]
          simp [resolved_pot]
    | uncalled serial amt =>
      exact absurd (hres _ (List.mem_cons_self _ _)) (by simp [StackRecord.isResolve])
    | left_over serial chips =>
      exact absurd (hres _ (List.mem_cons_self _ _)) (by simp [StackRecord.isResolve])

theorem get_player_rake_ok (gs : GameState) (rake : List (PlayerId × Int))
    (h : get_player_rake gs = Except.ok rake) : gs.serial2rake = some rake := by
  unfold get_player_rake at h
  split at h
  · rename_i m hm
    simp only [Except.ok.injEq] at h
    rw [hm, h]
  · exact absurd h (by simp)

/-- A successful `handle_EndEvent` run decomposes into: a present
`side_pots`/`pots` key, a successful record loop, a present `serial2rake`
key, and the loop's events followed by the single terminating
`HandEnded`. -/
theorem handle_EndEvent_ok_cases (pc : List (PlayerId × List Card)) (event : EndEvent)
    (evs : List NEvent) (h : handle_EndEvent pc event = Except.ok evs) :
    ∃ side_pots evs0 pots rake,
      event.showdown_stack_head.side_pots_pots = some side_pots ∧
      process_records pc (get_best_hands event.showdown_stack_head)
        ((side_pots.length : Int) - 1) event.showdown_stack_tail [] ⟨[], []⟩ =
        Except.ok (evs0, pots) ∧
      event.showdown_stack_head.serial2rake = some rake ∧
      evs = evs0 ++ [NEvent.HandEnded pots rake] := by
  unfold handle_EndEvent at h
  split at h
  · exact absurd h (by simp)
  · rename_i side_pots hsp
    split at h
    · exact absurd h (by simp)
    · rename_i evs0 pots hpr
      split at h
      · exact absurd h (by simp)
      · rename_i rake hrake
        simp only [Except.ok.injEq] at h
        exact ⟨side_pots, evs0, pots, rake, hsp, hpr,
          get_player_rake_ok _ _ hrake, h.symm⟩

/-- The counterexample input of C4: an End event with no best-hand
information whose stack tail holds one `uncalled` record. -/
def c4_counter_end_event : EndEvent :=
  { winners := [22],
    showdown_stack_head :=
      { serial2best := none, side_pots_pots := some [], serial2rake := some [] },
    showdown_stack_tail := [StackRecord.uncalled 22 5] }

/-- C4 counterexample: with no best-hand information but an `uncalled`
record, the output contains an uncalled-bet-returned event, which is
neither a collected event nor the hand-ended event — so "only collected
and one hand-ended event" is false as stated. -/
theorem c4_uncalled_event_counterexample :
    handle_EndEvent [] c4_counter_end_event =
      Except.ok [NEvent.UncalledBetReturnedToPlayer 22 5, NEvent.HandEnded [] []] ∧
    c4_counter_end_event.showdown_stack_head.serial2best = none ∧
    NEvent.isCollected (NEvent.UncalledBetReturnedToPlayer 22 5) = false ∧
    NEvent.isHandEnded (NEvent.UncalledBetReturnedToPlayer 22 5) = false :=
  ⟨rfl, rfl, rfl, rfl⟩

/-- C4 (amended): for an End event whose leading record carries no
`serial2best` key, a successful run produces no showed- or mucked-hand
events; every produced event is a collected, uncalled-bet-returned, or
hand-ended event, and the output is a front of non-terminating events
followed by exactly one hand-ended event. -/
theorem c4_no_besthand_events (pc : List (PlayerId × List Card)) (event : EndEvent)
    (hb : event.showdown_stack_head.serial2best = none) (evs : List NEvent)
    (h : handle_EndEvent pc event = Except.ok evs) :
    (∀ e ∈ evs, NEvent.isShowOrMuck e = false) ∧
    (∀ e ∈ evs, NEvent.isCollected e = true ∨ NEvent.isUncalledReturned e = true ∨
      NEvent.isHandEnded e = true) ∧
    (∃ front pots rake, evs = front ++ [NEvent.HandEnded pots rake] ∧
      ∀ e ∈ front, NEvent.isHandEnded e = false) := by
  obtain ⟨side_pots, evs0, pots, rake, hsp, hpr, hrake, heq⟩ :=
    handle_EndEvent_ok_cases pc event evs h
  have hbh : get_best_hands event.showdown_stack_head = none := by
    simp [get_best_hands, hb]
  rw [hbh] at hpr
  have hk := process_records_kinds pc none _ _ _ _ _ _ hpr
  subst heq
  refine ⟨?_, ?_, evs0, pots, rake, rfl, ?_⟩
  · intro e he
    rcases List.mem_append.mp he with he' | he'
    · exact hk.2 rfl e he'
    · simp only [List.mem_singleton] at he'
      subst he'
      rfl
  · intro e he
    rcases List.mem_append.mp he with he' | he'
    · rcases hk.1 e he' with hx | hx
      · rw [hk.2 rfl e he'] at hx
        cases hx
      · rcases hx with hx | hx
        · exact Or.inl hx
        · exact Or.inr (Or.inl hx)
    · simp only [List.mem_singleton] at he'
      subst he'
      exact Or.inr (Or.inr rfl)
  · intro e he
    rcases hk.1 e he with hx | hx
    · exact not_HandEnded_of_kinds e (Or.inl hx)
    · exact not_HandEnded_of_kinds e (Or.inr hx)

/-- The C4 witness input: the repo's own fold-win fixture
(test_handhistory.py lines 70-75): no `serial2best`, one resolve record,
player 23 wins 37 uncontested. -/
def c4_witness_end_event : EndEvent :=
  { winners := [23],
    showdown_stack_head :=
      { serial2best := none, side_pots_pots := some [PyVal.int 0],
        serial2rake := some [(23, 0)] },
    showdown_stack_tail := [StackRecord.resolve [23] 37 [(23, 37)]] }

/-- C4 witness at the concrete fold-win hand. -/
theorem c4_no_besthand_events_witness :
    handle_EndEvent [] c4_witness_end_event =
      Except.ok [NEvent.PlayerCollectedFromMainPot 23 (PyVal.int 37),
        NEvent.HandEnded [⟨37, [23], [(23, 37)]⟩] [(23, 0)]] ∧
    ((∀ e ∈ [NEvent.PlayerCollectedFromMainPot 23 (PyVal.int 37),
        NEvent.HandEnded [⟨37, [23], [(23, 37)]⟩] [(23, 0)]],
        NEvent.isShowOrMuck e = false) ∧
     (∀ e ∈ [NEvent.PlayerCollectedFromMainPot 23 (PyVal.int 37),
        NEvent.HandEnded [⟨37, [23], [(23, 37)]⟩] [(23, 0)]],
        NEvent.isCollected e = true ∨ NEvent.isUncalledReturned e = true ∨
          NEvent.isHandEnded e = true) ∧
     (∃ front pots rake,
        [NEvent.PlayerCollectedFromMainPot 23 (PyVal.int 37),
         NEvent.HandEnded [⟨37, [23], [(23, 37)]⟩] [(23, 0)]] =
          front ++ [NEvent.HandEnded pots rake] ∧
        ∀ e ∈ front, NEvent.isHandEnded e = false)) :=
  ⟨rfl, c4_no_besthand_events [] c4_witness_end_event rfl _ rfl⟩

/-- C6: for an End event whose stack tail is exactly one resolve record
per declared pot, in pot order, any successful run emits exactly one
terminating hand-ended event after all resolution events; its pot list is
the reverse of the records' pots (so element zero is the pot whose
0-based index is `len(pots) - 1`, the declared main pot), and its rake
map is the leading record's `serial2rake`. -/
theorem c6_hand_ended_shape (pc : List (PlayerId × List Card)) (event : EndEvent)
    (side_pots : List PyVal) (rake : List (PlayerId × Int))
    (hsp : event.showdown_stack_head.side_pots_pots = some side_pots)
    (hres : ∀ r ∈ event.showdown_stack_tail, StackRecord.isResolve r = true)
    (hlen : event.showdown_stack_tail.length = side_pots.length)
    (hrake : event.showdown_stack_head.serial2rake = some rake)
    (evs : List NEvent) (h : handle_EndEvent pc event = Except.ok evs) :
    ∃ front,
      evs = front ++ [NEvent.HandEnded
        ((event.showdown_stack_tail.map resolved_pot).reverse) rake] ∧
      (∀ e ∈ front, NEvent.isHandEnded e = false) ∧
      ((event.showdown_stack_tail.map resolved_pot).reverse).head? =
        (event.showdown_stack_tail.map resolved_pot).get? (side_pots.length - 1) := by
  obtain ⟨sp2, evs0, pots, rake2, hsp2, hpr, hrake2, heq⟩ :=
    handle_EndEvent_ok_cases pc event evs h
  rw [hsp] at hsp2
  injection hsp2 with hsp2
  subst hsp2
  rw [hrake] at hrake2
  injection hrake2 with hrake2
  subst hrake2
  have hpots := process_records_pots pc _ _ _ _ _ _ _ hres hpr
  rw [List.append_nil] at hpots
  have hk := process_records_kinds pc _ _ _ _ _ _ _ hpr
  refine ⟨evs0, ?_, ?_, ?_⟩
  · rw [heq, hpots]
  · intro e he
    exact not_HandEnded_of_kinds e (hk.1 e he)
  · rw [List.head?_reverse, List.getLast?_eq_get?, List.length_map, hlen]

/-- The C6 witness input: two declared pots, one resolve record per pot in
pot order (side pot first, main pot last), no best-hand information. -/
def c6_witness_end_event : EndEvent :=
  { winners := [23],
    showdown_stack_head :=
      { serial2best := none,
        side_pots_pots := some [PyVal.int 0, PyVal.int 0],
        serial2rake := some [(23, 1)] },
    showdown_stack_tail :=
      [StackRecord.resolve [22, 23] 40 [(22, 40)], StackRecord.resolve [23] 10 [(23, 10)]] }

/-- C6 witness at the concrete two-pot hand. -/
theorem c6_hand_ended_shape_witness :
    handle_EndEvent [] c6_witness_end_event =
      Except.ok [NEvent.PlayerCollectedFromSidePot 22 (PyVal.int 40) 0,
        NEvent.PlayerCollectedFromMainPot 23 (PyVal.int 10),
        NEvent.HandEnded [⟨10, [23], [(23, 10)]⟩, ⟨40, [22, 23], [(22, 40)]⟩] [(23, 1)]] ∧
    (∃ front,
      [NEvent.PlayerCollectedFromSidePot 22 (PyVal.int 40) 0,
       NEvent.PlayerCollectedFromMainPot 23 (PyVal.int 10),
       NEvent.HandEnded [⟨10, [23], [(23, 10)]⟩, ⟨40, [22, 23], [(22, 40)]⟩] [(23, 1)]] =
        front ++ [NEvent.HandEnded
          ((c6_witness_end_event.showdown_stack_tail.map resolved_pot).reverse) [(23, 1)]] ∧
      (∀ e ∈ front, NEvent.isHandEnded e = false) ∧
      ((c6_witness_end_event.showdown_stack_tail.map resolved_pot).reverse).head? =
        (c6_witness_end_event.showdown_stack_tail.map resolved_pot).get? (2 - 1)) :=
  ⟨rfl, c6_hand_ended_shape [] c6_witness_end_event [PyVal.int 0, PyVal.int 0] [(23, 1)]
    rfl (by decide) rfl rfl _ rfl⟩

/-- The amount tokens the regex group `[0-9]?\.?[0-9]+` can capture as a
whole: an integer numeral, or a decimal numeral with at most one digit
before the decimal point (the group allows at most one digit before the
optional dot). -/
def isAmountTok (s : List Char) : Bool :=
  match s with
  | [] => false
  | c :: rest =>
    if c = '.' then !rest.isEmpty && rest.all Char.isDigit
    else
      c.isDigit &&
        (match rest with
         | [] => true
         | c2 :: rest2 =>
           if c2 = '.' then !rest2.isEmpty && rest2.all Char.isDigit
           else (c2 :: rest2).all Char.isDigit)

/-- An integer or decimal numeral as the claim words it: one or more
digits, optionally followed by a dot and one or more digits. -/
def isNumeral (s : List Char) : Bool :=
  let ip := s.takeWhile Char.isDigit
  match s.drop ip.length with
  | [] => !ip.isEmpty
  | c :: ds => c == '.' && !ds.isEmpty && ds.all Char.isDigit

theorem digit_ne_dot {c : Char} (h : c.isDigit = true) : ¬ c = '.' := by
  intro heq
  rw [heq] at h
  exact absurd h (by decide)

theorem exists_cons_of_head?_eq {α : Type} {l : List α} {a : α}
    (h : l.head? = some a) : ∃ tl, l = a :: tl := by
  cases l with
  | nil => cases h
  | cons x xs =>
    simp only [List.head?_cons, Option.some.injEq] at h
    exact ⟨xs, by rw [h]⟩

/-- The greedy `[0-9]+` match of a digit run followed by a dash is the
head candidate. -/
theorem rePlusDigits_head : ∀ (ds r' : List Char), ds ≠ [] →
    ds.all Char.isDigit = true →
    ∃ tl, rePlusDigits (ds ++ '-' :: r') = (ds, '-' :: r') :: tl := by
  intro ds
  induction ds with
  | nil => intro r' h _; exact absurd rfl h
  | cons c cs ih =>
    intro r' _ hall
    simp only [List.all_cons, Bool.and_eq_true] at hall
    obtain ⟨hc, hcs⟩ := hall
    by_cases hn : cs = []
    · subst hn
      refine ⟨[], ?_⟩
      simp [rePlusDigits, hc]
    · obtain ⟨tl, htl⟩ := ih r' hn hcs
      refine ⟨tl.map (fun p => (c :: p.1, p.2)) ++ [([c], cs ++ '-' :: r')], ?_⟩
      simp only [List.cons_append, rePlusDigits, hc, if_true, List.append_eq, htl,
        List.map_cons]

/-- The three shapes of an accepted amount token. -/
theorem amountTok_shape (T : List Char) (h : isAmountTok T = true) :
    (T ≠ [] ∧ T.all Char.isDigit = true) ∨
    (∃ c ds, T = c :: '.' :: ds ∧ c.isDigit = true ∧ ds ≠ [] ∧
      ds.all Char.isDigit = true) ∨
    (∃ ds, T = '.' :: ds ∧ ds ≠ [] ∧ ds.all Char.isDigit = true) := by
  match T with
  | [] => exact absurd h (by simp [isAmountTok])
  | c :: rest =>
    by_cases hdot : c = '.'
    · subst hdot
      right; right
      simp only [isAmountTok, eq_self_iff_true, if_true, Bool.and_eq_true,
        Bool.not_eq_true', List.isEmpty_eq_false] at h
      exact ⟨rest, rfl, h.1, h.2⟩
    · simp only [isAmountTok, if_neg hdot, Bool.and_eq_true] at h
      obtain ⟨hc, hrest⟩ := h
      cases rest with
      | nil =>
        left
        exact ⟨by simp, by simp [hc]⟩
      | cons c2 rest2 =>
        by_cases hdot2 : c2 = '.'
        · subst hdot2
          simp only [eq_self_iff_true, if_true, Bool.and_eq_true, Bool.not_eq_true',
            List.isEmpty_eq_false] at hrest
          right; left
          exact ⟨c, rest2, rfl, hc, hrest.1, hrest.2⟩
        · simp only [if_neg hdot2] at hrest
          left
          exact ⟨by simp, by simp [List.all_cons, hc, hrest]⟩

theorem dash_not_digit : ('-' : Char).isDigit = false := rfl

theorem dot_not_digit : ('.' : Char).isDigit = false := rfl

theorem dash_ne_dot : ('-' : Char) ≠ '.' := by decide

/-- The full amount group `[0-9]?\.?[0-9]+` matching a whole token
followed by a dash: the token itself is the highest-priority candidate. -/
theorem reAmountGroup_head (T r' : List Char) (h : isAmountTok T = true) :
    ∃ tl, reAmountGroup (T ++ '-' :: r') = (T, '-' :: r') :: tl := by
  rcases amountTok_shape T h with ⟨hne, hall⟩ | ⟨c, ds, rfl, hc, hdne, hdall⟩ |
    ⟨ds, rfl, hdne, hdall⟩
  · obtain ⟨x, t, rfl⟩ := List.exists_cons_of_ne_nil hne
    simp only [List.all_cons, Bool.and_eq_true] at hall
    obtain ⟨hx, ht⟩ := hall
    cases t with
    | nil =>
      obtain ⟨tl0, htl0⟩ := rePlusDigits_head [x] r' (by simp) (by simp [hx])
      simp only [List.cons_append, List.nil_append] at htl0 ⊢
      simp only [reAmountGroup, reOptDigit, hx, if_true, List.flatMap_cons,
        List.flatMap_nil, reOptDot, if_neg dash_ne_dot, if_neg (digit_ne_dot hx),
        rePlusDigits, dash_not_digit, if_false, List.map_nil, List.nil_append,
        List.append_nil, htl0, List.map_cons, List.cons_append]
      exact ⟨_, rfl⟩
    | cons c2 t2 =>
      simp only [List.all_cons, Bool.and_eq_true] at ht
      obtain ⟨tl0, htl0⟩ := rePlusDigits_head (c2 :: t2) r' (by simp)
        (by simp [List.all_cons, ht.1, ht.2])
      simp only [List.cons_append] at htl0 ⊢
      simp only [reAmountGroup, reOptDigit, hx, if_true, List.flatMap_cons,
        List.flatMap_nil, reOptDot, if_neg (digit_ne_dot ht.1), htl0,
        List.map_cons, List.cons_append, List.nil_append]
      exact ⟨_, rfl⟩
  · obtain ⟨tl0, htl0⟩ := rePlusDigits_head ds r' hdne hdall
    simp only [List.cons_append] at htl0 ⊢
    simp only [reAmountGroup, reOptDigit, hc, if_true, List.flatMap_cons,
      List.flatMap_nil, reOptDot, eq_self_iff_true, htl0, List.map_cons,
      List.cons_append, List.nil_append]
    exact ⟨_, rfl⟩
  · obtain ⟨tl0, htl0⟩ := rePlusDigits_head ds r' hdne hdall
    simp only [List.cons_append] at htl0 ⊢
    simp only [reAmountGroup, reOptDigit, dot_not_digit, if_false, Bool.false_eq_true,
      List.flatMap_cons, List.flatMap_nil, reOptDot, eq_self_iff_true, if_true, htl0,
      List.map_cons, List.cons_append, List.nil_append]
    exact ⟨_, rfl⟩

/-- Matching `A-A-(.+)` against a well-formed
`amount ++ '-' ++ amount ++ '-' ++ keyword` string captures exactly the
two amounts and the keyword. -/
theorem reMatchTail_structured (a1 a2 kw : List Char)
    (h1 : isAmountTok a1 = true) (h2 : isAmountTok a2 = true)
    (hkw : kw.takeWhile (fun c => c ≠ '\n') = kw) (hkwne : kw ≠ []) :
    reMatchTail (a1 ++ '-' :: (a2 ++ '-' :: kw)) = some (a1, a2, kw) := by
  obtain ⟨tl1, e1⟩ := reAmountGroup_head a1 (a2 ++ '-' :: kw) h1
  obtain ⟨tl2, e2⟩ := reAmountGroup_head a2 kw h2
  have hkwe : kw.isEmpty = false := by
    cases kw with
    | nil => exact absurd rfl hkwne
    | cons c cs => rfl
  unfold reMatchTail
  rw [e1, List.findSome?_cons]
  simp only [e2, List.findSome?_cons, hkw, hkwe, Bool.false_eq_true, if_false]

theorem natFromDigits_foldl (a : Nat) (ys : List Char) :
    ys.foldl (fun acc c => 10 * acc + (c.toNat - 48)) a =
      a * 10 ^ ys.length + natFromDigits ys := by
  induction ys generalizing a with
  | nil => simp [natFromDigits]
  | cons y ys ih =>
    simp only [List.foldl_cons, natFromDigits, List.length_cons]
    rw [ih (10 * a + (y.toNat - 48)), ih (10 * 0 + (y.toNat - 48))]
    ring

theorem natFromDigits_append (xs ys : List Char) :
    natFromDigits (xs ++ ys) = natFromDigits xs * 10 ^ ys.length + natFromDigits ys := by
  unfold natFromDigits
  rw [List.foldl_append]
  exact natFromDigits_foldl _ ys

/-- The parsed amount is exactly the numeral's rational value multiplied
by the scale factor 100 and truncated (floor, the values being
nonnegative). -/
theorem amount_string_value (s : List Char) :
    amount_string_to_int s = ⌊decimal_value s * 100⌋ := by
  unfold amount_string_to_int decimal_value
  rw [natFromDigits_append]
  have hval : ((natFromDigits (intDigits s) : ℚ) +
      (natFromDigits (fracDigits s) : ℚ) / 10 ^ (fracDigits s).length) * 100 =
      ((((natFromDigits (intDigits s) * 10 ^ (fracDigits s).length +
        natFromDigits (fracDigits s)) * 100 : ℕ) : ℤ) : ℚ) /
        ((10 ^ (fracDigits s).length : ℕ) : ℚ) := by
    have h10 : ((10 : ℚ) ^ (fracDigits s).length) ≠ 0 := by positivity
    push_cast
    field_simp
  rw [hval, Rat.floor_intCast_div_natCast]
  push_cast [Int.ofNat_div]
  rfl

/-- C8 (amended): for every betting-structure string with an optional
`ante-` prefix, two amounts each an integer numeral or a decimal numeral
with at most one digit before the decimal point, and a limit keyword in
the map, parsing succeeds with the mapped limit kind and each amount
equal to the numeral's decimal value scaled by 100 and truncated. -/
theorem c8_betting_structure_parse (ante : Bool) (a1 a2 kw : List Char) (l : Limit)
    (h1 : isAmountTok a1 = true) (h2 : isAmountTok a2 = true)
    (h3 : LIMIT_MAP kw = some l) :
    parse_betting_structure
      ((if ante then "ante-".toList else []) ++ (a1 ++ '-' :: (a2 ++ '-' :: kw))) =
      some ⟨l, amount_string_to_int a1, amount_string_to_int a2⟩ ∧
    amount_string_to_int a1 = ⌊decimal_value a1 * 100⌋ ∧
    amount_string_to_int a2 = ⌊decimal_value a2 * 100⌋ := by
  refine ⟨?_, amount_string_value a1, amount_string_value a2⟩
  have hkw : kw.takeWhile (fun c => c ≠ '\n') = kw ∧ kw ≠ [] := by
    unfold LIMIT_MAP at h3
    split_ifs at h3 with hk1 hk2 hk3
    · subst hk1; exact ⟨by decide, by decide⟩
    · subst hk2; exact ⟨by decide, by decide⟩
    · subst hk3; exact ⟨by decide, by decide⟩
  have hmt := reMatchTail_structured a1 a2 kw h1 h2 hkw.1 hkw.2
  cases ante with
  | true =>
    show parse_betting_structure
      ("ante-".toList ++ (a1 ++ '-' :: (a2 ++ '-' :: kw))) =
      some ⟨l, amount_string_to_int a1, amount_string_to_int a2⟩
    have htake : (("ante-".toList ++ (a1 ++ '-' :: (a2 ++ '-' :: kw))).take 5) =
        "ante-".toList := by
      rw [show (5 : ℕ) = ("ante-".toList).length from rfl, List.take_left]
    have hdrop : (("ante-".toList ++ (a1 ++ '-' :: (a2 ++ '-' :: kw))).drop 5) =
        a1 ++ '-' :: (a2 ++ '-' :: kw) := by
      rw [show (5 : ℕ) = ("ante-".toList).length from rfl, List.drop_left]
    unfold parse_betting_structure reMatchBettingStructure
    rw [if_pos htake, hdrop]
    simp only [hmt, h3]
  | false =>
    show parse_betting_structure (a1 ++ '-' :: (a2 ++ '-' :: kw)) =
      some ⟨l, amount_string_to_int a1, amount_string_to_int a2⟩
    have hhead : ∃ x t, a1 = x :: t ∧ (x.isDigit = true ∨ x = '.') := by
      rcases amountTok_shape a1 h1 with ⟨hne1, hall⟩ | ⟨c, ds, rfl, hc, _, _⟩ |
        ⟨ds, rfl, _, _⟩
      · obtain ⟨x, t, rfl⟩ := List.exists_cons_of_ne_nil hne1
        simp only [List.all_cons, Bool.and_eq_true] at hall
        exact ⟨x, t, rfl, Or.inl hall.1⟩
      · exact ⟨c, '.' :: ds, rfl, Or.inl hc⟩
      · exact ⟨'.', ds, rfl, Or.inr rfl⟩
    obtain ⟨x, t, ha1, hx⟩ := hhead
    have hne : ¬ ((a1 ++ '-' :: (a2 ++ '-' :: kw)).take 5 = "ante-".toList) := by
      intro hEq
      rw [ha1] at hEq
      have hA : "ante-".toList = 'a' :: "nte-".toList := rfl
      have hxa : x = 'a' := by
        have h0 := congrArg (fun L => L.head?) hEq
        simpa [hA, List.cons_append] using h0
      rcases hx with hx | hx
      · rw [hxa] at hx; exact absurd hx (by decide)
      · rw [hxa] at hx; exact absurd hx (by decide)
    unfold parse_betting_structure reMatchBettingStructure
    rw [if_neg hne]
    simp only [hmt, h3]

/-- C8 witness at the repo's own fixture `.10-.25-no-limit`. -/
theorem c8_betting_structure_parse_witness :
    isAmountTok ".10".toList = true ∧ isAmountTok ".25".toList = true ∧
    LIMIT_MAP "no-limit".toList = some Limit.NO_LIMIT ∧
    parse_betting_structure ".10-.25-no-limit".toList =
      some ⟨Limit.NO_LIMIT, amount_string_to_int ".10".toList,
        amount_string_to_int ".25".toList⟩ ∧
    amount_string_to_int ".10".toList = 10 ∧
    amount_string_to_int ".25".toList = 25 := by
  refine ⟨by decide, by decide, by decide, ?_, by decide, by decide⟩
  exact (c8_betting_structure_parse false ".10".toList ".25".toList
    "no-limit".toList Limit.NO_LIMIT (by decide) (by decide) (by decide)).1

/-- C8 counterexample: `10.25` is a decimal numeral and `limit` a valid
keyword, yet parsing `10.25-25-limit` fails (the amount group allows at
most one digit before the decimal point, so the regex does not match and
`None.groups()` raises) — the claim as stated is false for this input. -/
theorem c8_two_digit_decimal_counterexample :
    isNumeral "10.25".toList = true ∧
    isNumeral "25".toList = true ∧
    LIMIT_MAP "limit".toList = some Limit.FIXED_LIMIT ∧
    parse_betting_structure "10.25-25-limit".toList = none := by
  exact ⟨by decide, by decide, by decide, by decide⟩
